import Mathlib

/-!
# go-unifi: user operations (`unifi/user.go`)

A shallow embedding of the user operations of the UniFi controller client and
the properties of its response handling, command dispatch and version gate.

The client talks to the controller through collaborators that are not part of
`user.go` (`c.do`, `c.getUser`, `c.listUser`).  They are fields
of the `Client` record: arbitrary functions over an arbitrary controller state
`σ`, so every theorem holds for every behaviour of the controller.  Each call
on a collaborator is recorded, in order, in the `trace` of the run state.
-/

namespace Unifi

/-! ## Data model -/

deriving instance DecidableEq for Except

/-- Modelled from the spec: the `User` schema is declared outside `user.go`.
The spec treats it as an opaque record with an identifier and a MAC address
plus pass-through metadata fields. -/
structure User where
  ID : String
  MAC : String
  fields : List (String × String)
  deriving DecidableEq, Repr

/-- Modelled from the spec: the `meta` type is declared outside `user.go`.
The spec describes it as a metadata record with a status code and message and,
optionally, an error message; an absent error message is the empty string. -/
structure Meta where
  rc : String
  msg : String
  error : String
  deriving DecidableEq, Repr

/-- Error values.  `NotFoundError` is `&NotFoundError{}`, `errorf msg` is
`fmt.Errorf(msg)`, `protocol m` is the error built by `meta.error()` and
`other` stands for any further error value a collaborator may return. -/
inductive Err where
  | NotFoundError
  | errorf (msg : String)
  | protocol (m : Meta)
  | other (tag : String)
  deriving DecidableEq, Repr

/-- Modelled from the spec: the method `meta.error()` is declared outside
`user.go`.  In the spec, metadata that carries a non-empty error message is a
protocol error surfaced verbatim, and the absence of an error message means
success at the protocol level (`nil`, here `none`). -/
def Meta.error? (m : Meta) : Option Err :=
  if m.error = "" then none else some (Err.protocol m)

/-- Values stored under a key of a `map[string]interface{}`: the bodies built
in `user.go` hold a string or a slice of strings. -/
inductive Value where
  | str (s : String)
  | strs (l : List String)
  deriving DecidableEq, Repr

/-- A Go `map[string]interface{}` as an association list; the nil map and the
empty map are both `[]` (ranging over either runs no iteration). -/
abbrev GoMap := List (String × Value)

/-- Reading `m[k]`: the value bound to `k`, if any. -/
def GoMap.get : GoMap → String → Option Value
  | [], _ => none
  | (k', v) :: m, k => if k' = k then some v else GoMap.get m k

/-- The assignment `m[k] = v`: rebinds `k` when present, adds it otherwise. -/
def GoMap.set : GoMap → String → Value → GoMap
  | [], k, v => [(k, v)]
  | (k', v') :: m, k, v => if k' = k then (k, v) :: m else (k', v') :: GoMap.set m k v

/-- The keys of a map. -/
def GoMap.keys (m : GoMap) : List String := m.map Prod.fst

/-- A Go map binds each key once. -/
def GoMap.WF (m : GoMap) : Prop := m.keys.Nodup

instance (m : GoMap) : Decidable m.WF := by unfold GoMap.WF; infer_instance

/-- The response shape `struct { Meta meta; Data []User }`. -/
structure Envelope where
  Meta : Meta
  Data : List User
  deriving DecidableEq, Repr

/-- The response shape of `CreateUser`: an outer envelope whose data is a
sequence of `struct { Meta meta; Data []User }`. -/
structure GroupEnvelope where
  Meta : Meta
  Data : List Envelope
  deriving DecidableEq, Repr

/-- HTTP methods used by `user.go`. -/
inductive Method where
  | GET | POST | PUT
  deriving DecidableEq, Repr

/-- Request bodies passed to `c.do`: `nil`, the `{objects: [{data: d}]}`
struct of `CreateUser`, a `map[string]interface{}`, or a `*User`. -/
inductive Body where
  | null
  | objects (ds : List User)
  | params (m : GoMap)
  | user (d : User)
  deriving DecidableEq, Repr

/-- One call of `c.do(ctx, method, path, body, &respBody)`. -/
structure Request where
  method : Method
  path : String
  body : Body
  deriving DecidableEq, Repr

/-- Calls made on the collaborators of `user.go`. -/
inductive Call where
  | transport (r : Request)
  | getUser (site id : String)
  | listUser (site : String)
  deriving DecidableEq, Repr

/-- The client: its version string and its collaborators.  `doUsers` is `c.do`
decoding into an `Envelope`, `doGroup` is `c.do` decoding into a
`GroupEnvelope`; `getUser` and `listUser` are the unexported methods the
public ones delegate to.  Each may read and change the
controller state `σ`. -/
structure Client (σ : Type) where
  version : String
  doUsers : Request → σ → Except Err Envelope × σ
  doGroup : Request → σ → Except Err GroupEnvelope × σ
  getUser : String → String → σ → Except Err User × σ
  listUser : String → σ → Except Err (List User) × σ

/-- Run state: the controller state and the calls issued so far, oldest first. -/
structure St (σ : Type) where
  world : σ
  trace : List Call

/-- Records a call in the trace and moves to the controller state it leaves. -/
def St.record {σ : Type} (s : St σ) (call : Call) (w : σ) : St σ :=
  { world := w, trace := s.trace ++ [call] }

/-! ## Versions -/

/-- Modelled from the spec: the version library (`github.com/hashicorp/go-version`)
is not part of `user.go`.  The spec describes a version as a dotted-numeric
value; the segments are kept as a list, most significant first. -/
structure Version where
  segments : List Nat
  deriving DecidableEq, Repr

/-- Splits a character sequence at every dot. -/
def splitDots : List Char → List (List Char)
  | [] => [[]]
  | c :: cs =>
    if c = '.' then [] :: splitDots cs
    else match splitDots cs with
      | [] => [[c]]
      | seg :: rest => (c :: seg) :: rest

/-- Reads one segment: a non-empty run of decimal digits that fits a signed
64-bit integer. -/
def parseSegment (cs : List Char) : Option Nat :=
  if cs ≠ [] ∧ cs.all Char.isDigit = true then
    let n := cs.foldl (fun acc c => 10 * acc + (c.toNat - 48)) 0
    if n < 2 ^ 63 then some n else none
  else none

/-- Reads every segment, failing when one of them fails. -/
def parseSegments : List (List Char) → Option (List Nat)
  | [] => some []
  | seg :: rest =>
    match parseSegment seg, parseSegments rest with
    | some n, some ns => some (n :: ns)
    | _, _ => none

/-- Pads a segment list with zeros up to three segments. -/
def padSegments (ns : List Nat) : List Nat :=
  ns ++ List.replicate (3 - ns.length) 0

/-- Modelled from the spec: `version.NewVersion` is not part of `user.go`.
A version is parsed from a dotted-numeric string, such as `6.0.43`, and has at
least three segments; any other string fails to parse.  `none` is the failed
parse, which in Go is the result pair of a nil `*Version` and an error. -/
def NewVersion (v : String) : Option Version :=
  match parseSegments (splitDots v.toList) with
  | some ns => some { segments := padSegments ns }
  | none => none

/-- Whether every segment is zero. -/
def allZero (ns : List Nat) : Bool := ns.all (fun n => n == 0)

/-- Segment-wise numeric comparison, most significant segment first, with the
result -1, 0 or 1; when one list is exhausted the other wins unless all its
remaining segments are zero. -/
def compareSegments : List Nat → List Nat → Int
  | [], bs => if allZero bs then 0 else -1
  | a :: as, [] => if allZero (a :: as) then 0 else 1
  | a :: as, b :: bs =>
    if a < b then -1
    else if b < a then 1
    else compareSegments as bs

/-- Modelled from the spec: `Version.Compare` is not part of `user.go`.
Versions are ordered by numeric segment-wise precedence; the result is -1, 0
or 1 as the receiver is smaller than, equal to or larger than `other`. -/
def Version.Compare (v other : Version) : Int :=
  compareSegments v.segments other.segments

/-- Modelled from the spec: `Version.GreaterThanOrEqual` is not part of
`user.go`; on a version it is `v.Compare(o) >= 0`.  Its receiver is a
`*Version`, here an `Option`, and `NewVersion` hands back the nil pointer when
the parse fails.  The method reads the segments of its receiver, so on the nil
pointer (`none`) the call is a nil-pointer dereference, a run-time panic, and
has no result (`none`). -/
def GreaterThanOrEqual (v : Option Version) (o : Version) : Option Bool :=
  match v with
  | none => none
  | some v => some (decide (0 ≤ v.Compare o))

/-- `version.Must`: unwraps a parse result and panics on a failed parse; it
is used at package initialisation, on a parse that succeeds. -/
def Must (v : Option Version) (h : v.isSome = true) : Version := v.get h

/-- `controllerV6_0_43 = version.Must(version.NewVersion("6.0.43"))`. -/
def controllerV6_0_43 : Version := Must (NewVersion "6.0.43") (by decide)

/-! ## Operations of `user.go` -/

section Operations

variable {σ : Type}

/-- The call `c.do(ctx, method, path, body, &respBody)` with `respBody` an
`Envelope`, recorded in the trace. -/
def Client.send (c : Client σ) (r : Request) (s : St σ) : Except Err Envelope × St σ :=
  ((c.doUsers r s.world).1, s.record (Call.transport r) (c.doUsers r s.world).2)

/-- The call `c.do(ctx, method, path, body, &respBody)` with `respBody` a
`GroupEnvelope`, recorded in the trace. -/
def Client.sendGroup (c : Client σ) (r : Request) (s : St σ) :
    Except Err GroupEnvelope × St σ :=
  ((c.doGroup r s.world).1, s.record (Call.transport r) (c.doGroup r s.world).2)

/-- `Client.GetUserByMAC`: GET `s/{site}/stat/user/{mac}`, exactly one record
expected. -/
def GetUserByMAC (c : Client σ) (site mac : String) (s : St σ) : Except Err User × St σ :=
  match c.send { method := Method.GET, path := "s/" ++ site ++ "/stat/user/" ++ mac,
                 body := Body.null } s with
  | (Except.error err, s1) => (Except.error err, s1)
  | (Except.ok respBody, s1) =>
    if h : respBody.Data.length ≠ 1 then (Except.error Err.NotFoundError, s1)
    else (Except.ok (respBody.Data.get ⟨0, by omega⟩), s1)

/-- `Client.CreateUser`: POST `s/{site}/group/user` with `{objects: [{data: d}]}`;
the response is a two-level envelope. -/
def CreateUser (c : Client σ) (site : String) (d : User) (s : St σ) :
    Except Err User × St σ :=
  match c.sendGroup { method := Method.POST, path := "s/" ++ site ++ "/group/user",
                      body := Body.objects [d] } s with
  | (Except.error err, s1) => (Except.error err, s1)
  | (Except.ok respBody, s1) =>
    if h : respBody.Data.length ≠ 1 then
      (Except.error (Err.errorf "malformed group response"), s1)
    else
      match (respBody.Data.get ⟨0, by omega⟩).Meta.error? with
      | some err => (Except.error err, s1)
      | none =>
        if h2 : (respBody.Data.get ⟨0, by omega⟩).Data.length ≠ 1 then
          (Except.error Err.NotFoundError, s1)
        else
          (Except.ok ((respBody.Data.get ⟨0, by omega⟩).Data.get ⟨0, by omega⟩), s1)

/-- The two maps `stamgr` works on: the caller's `data` and the `reqBody` it
builds. -/
structure Maps where
  data : GoMap
  reqBody : GoMap
  deriving DecidableEq, Repr

/-- The loop `for k, v := range data { reqBody[k] = v }`, over the entries of
`data`. -/
def rangeCopy (entries : List (String × Value)) (m : Maps) : Maps :=
  entries.foldl (fun m kv => { m with reqBody := m.reqBody.set kv.1 kv.2 }) m

/-- The body construction of `stamgr`: `reqBody` starts empty, receives every
entry of `data`, then `reqBody["cmd"] = cmd`. -/
def stamgrMaps (cmd : String) (data : GoMap) : Maps :=
  let m := rangeCopy data { data := data, reqBody := [] }
  { m with reqBody := m.reqBody.set "cmd" (Value.str cmd) }

/-- `Client.stamgr`: POST `s/{site}/cmd/stamgr` with the parameters and the
`cmd` tag; returns the data sequence of the response. -/
def stamgr (c : Client σ) (site cmd : String) (data : GoMap) (s : St σ) :
    Except Err (List User) × St σ :=
  match c.send { method := Method.POST, path := "s/" ++ site ++ "/cmd/stamgr",
                 body := Body.params (stamgrMaps cmd data).reqBody } s with
  | (Except.error err, s1) => (Except.error err, s1)
  | (Except.ok respBody, s1) => (Except.ok respBody.Data, s1)

/-- `Client.BlockUserByMAC`; the result is the Go `error`, `none` being `nil`. -/
def BlockUserByMAC (c : Client σ) (site mac : String) (s : St σ) : Option Err × St σ :=
  match stamgr c site "block-sta" [("mac", Value.str mac)] s with
  | (Except.error err, s1) => (some err, s1)
  | (Except.ok users, s1) =>
    if users.length ≠ 1 then (some Err.NotFoundError, s1) else (none, s1)

/-- `Client.UnblockUserByMAC`; the result is the Go `error`, `none` being `nil`. -/
def UnblockUserByMAC (c : Client σ) (site mac : String) (s : St σ) : Option Err × St σ :=
  match stamgr c site "unblock-sta" [("mac", Value.str mac)] s with
  | (Except.error err, s1) => (some err, s1)
  | (Except.ok users, s1) =>
    if users.length ≠ 1 then (some Err.NotFoundError, s1) else (none, s1)

/-- `Client.DeleteUserByMAC`; the result is the Go `error`, `none` being `nil`. -/
def DeleteUserByMAC (c : Client σ) (site mac : String) (s : St σ) : Option Err × St σ :=
  match stamgr c site "forget-sta" [("macs", Value.strs [mac])] s with
  | (Except.error err, s1) => (some err, s1)
  | (Except.ok users, s1) =>
    if users.length ≠ 1 then (some Err.NotFoundError, s1) else (none, s1)

/-- `Client.ListUser`: delegates to `c.listUser`. -/
def ListUser (c : Client σ) (site : String) (s : St σ) : Except Err (List User) × St σ :=
  ((c.listUser site s.world).1, s.record (Call.listUser site) (c.listUser site s.world).2)

/-- `Client.GetUser`: delegates to `c.getUser`. -/
def GetUser (c : Client σ) (site id : String) (s : St σ) : Except Err User × St σ :=
  ((c.getUser site id s.world).1, s.record (Call.getUser site id) (c.getUser site id s.world).2)

/-- Modelled from the spec: the legacy `c.updateUser` is not part of `user.go`.
The spec describes it as a write through the group endpoint used by create,
`POST s/{site}/group/user` with body `{objects: [{data: User}]}`, whose own
echoed response is trusted, without a follow-up read; the response is the
two-level envelope of create and is read as `CreateUser` reads it. -/
def updateUser (c : Client σ) (site : String) (d : User) (s : St σ) :
    Except Err User × St σ :=
  match c.sendGroup { method := Method.POST, path := "s/" ++ site ++ "/group/user",
                      body := Body.objects [d] } s with
  | (Except.error err, s1) => (Except.error err, s1)
  | (Except.ok respBody, s1) =>
    if h : respBody.Data.length ≠ 1 then
      (Except.error (Err.errorf "malformed group response"), s1)
    else
      match (respBody.Data.get ⟨0, by omega⟩).Meta.error? with
      | some err => (Except.error err, s1)
      | none =>
        if h2 : (respBody.Data.get ⟨0, by omega⟩).Data.length ≠ 1 then
          (Except.error Err.NotFoundError, s1)
        else
          (Except.ok ((respBody.Data.get ⟨0, by omega⟩).Data.get ⟨0, by omega⟩), s1)

/-- `Client.updateUser6_0_43`: PUT `s/{site}/rest/user/{d.ID}` with `d`, then a
fresh `GetUser`; the PUT response body is not used.  `d` is a non-nil `*User`. -/
def updateUser6_0_43 (c : Client σ) (site : String) (d : User) (s : St σ) :
    Except Err User × St σ :=
  match c.send { method := Method.PUT, path := "s/" ++ site ++ "/rest/user/" ++ d.ID,
                 body := Body.user d } s with
  | (Except.error err, s1) => (Except.error err, s1)
  | (Except.ok _, s1) =>
    match GetUser c site d.ID s1 with
    | (Except.error err, s2) => (Except.error err, s2)
    | (Except.ok user, s2) => (Except.ok user, s2)

/-- How a call ends: it returns a value, or the goroutine panics. -/
inductive Outcome (α : Type) where
  | returned (r : α)
  | panicked
  deriving DecidableEq, Repr

/-- `Client.UpdateUser`: `v, _ := version.NewVersion(c.version)` drops the parse
error, then the switch takes the first case when
`v.GreaterThanOrEqual(controllerV6_0_43)` and the default case otherwise. -/
def UpdateUser (c : Client σ) (site : String) (d : User) (s : St σ) :
    Outcome (Except Err User) × St σ :=
  match GreaterThanOrEqual (NewVersion c.version) controllerV6_0_43 with
  | none => (Outcome.panicked, s)
  | some true =>
    (Outcome.returned (updateUser6_0_43 c site d s).1, (updateUser6_0_43 c site d s).2)
  | some false =>
    (Outcome.returned (updateUser c site d s).1, (updateUser c site d s).2)

/-- The check `BlockUserByMAC`, `UnblockUserByMAC` and `DeleteUserByMAC` each
apply to the result of `stamgr`: its error, else `NotFoundError` unless exactly
one user came back. -/
def classifyCommand (r : Except Err (List User)) : Option Err :=
  match r with
  | Except.error err => some err
  | Except.ok users => if users.length ≠ 1 then some Err.NotFoundError else none

/-! ### The requests each operation sends -/

/-- The request of `GetUserByMAC`. -/
def getUserByMACRequest (site mac : String) : Request :=
  { method := Method.GET, path := "s/" ++ site ++ "/stat/user/" ++ mac, body := Body.null }

/-- The request of `CreateUser`. -/
def createUserRequest (site : String) (d : User) : Request :=
  { method := Method.POST, path := "s/" ++ site ++ "/group/user", body := Body.objects [d] }

/-- The request of `stamgr`. -/
def stamgrRequest (site cmd : String) (data : GoMap) : Request :=
  { method := Method.POST, path := "s/" ++ site ++ "/cmd/stamgr",
    body := Body.params (stamgrMaps cmd data).reqBody }

/-- The write request of `updateUser6_0_43`. -/
def putUserRequest (site : String) (d : User) : Request :=
  { method := Method.PUT, path := "s/" ++ site ++ "/rest/user/" ++ d.ID, body := Body.user d }

end Operations

/-! ## Sample controllers and records -/

/-- A sample user record. -/
def alice : User :=
  { ID := "5f3e9a", MAC := "aa:bb:cc:dd:ee:01", fields := [("name", "alice")] }

/-- A second sample user record. -/
def bob : User :=
  { ID := "77c0d1", MAC := "aa:bb:cc:dd:ee:02", fields := [("name", "bob")] }

/-- Metadata without an error message. -/
def okMeta : Meta := { rc := "ok", msg := "", error := "" }

/-- Metadata carrying an error message. -/
def errMeta : Meta := { rc := "error", msg := "", error := "api.err.InvalidObject" }

/-- A scripted controller: it answers every transport call decoded as an
`Envelope` with `users`, every one decoded as a `GroupEnvelope` with `group`,
and every `getUser` with `read`; its state counts the calls it has served. -/
def scripted (version : String) (users : Except Err Envelope)
    (group : Except Err GroupEnvelope) (read : Except Err User) : Client Nat :=
  { version := version
    doUsers := fun _ n => (users, n + 1)
    doGroup := fun _ n => (group, n + 1)
    getUser := fun _ _ n => (read, n + 1)
    listUser := fun _ n => (Except.ok [], n + 1) }

/-- The initial run state of a scripted controller. -/
def start : St Nat := { world := 0, trace := [] }

end Unifi

namespace Unifi

variable {σ : Type}

/-! ## Maps -/

theorem GoMap.get_set (m : GoMap) (k : String) (v : Value) (k' : String) :
    (GoMap.set m k v).get k' = if k = k' then some v else m.get k' := by
  induction m with
  | nil => simp [GoMap.set, GoMap.get]
  | cons e m ih =>
    obtain ⟨k0, v0⟩ := e
    by_cases h0 : k0 = k
    · subst h0
      by_cases h1 : k0 = k' <;> simp [GoMap.set, GoMap.get, h1]
    · by_cases h1 : k0 = k'
      · subst h1
        have : ¬ k = k0 := fun h => h0 h.symm
        simp [GoMap.set, GoMap.get, h0, this]
      · simp [GoMap.set, GoMap.get, h0, h1, ih]

theorem GoMap.get_eq_none_iff (m : GoMap) (k : String) : m.get k = none ↔ k ∉ m.keys := by
  induction m with
  | nil => simp [GoMap.get, GoMap.keys]
  | cons e m ih =>
    obtain ⟨k0, v0⟩ := e
    by_cases h : k0 = k
    · simp [GoMap.get, GoMap.keys, h]
    · have h' : ¬ k = k0 := fun e => h e.symm
      simp only [GoMap.keys] at ih
      simp [GoMap.get, GoMap.keys, h, h', ih]

theorem GoMap.mem_keys_iff (m : GoMap) (k : String) : k ∈ m.keys ↔ ∃ v, m.get k = some v := by
  rw [← Option.isSome_iff_exists, ← Option.ne_none_iff_isSome, Ne, GoMap.get_eq_none_iff]
  simp

theorem GoMap.keys_set (m : GoMap) (k : String) (v : Value) (k' : String) :
    k' ∈ (GoMap.set m k v).keys ↔ k' ∈ m.keys ∨ k' = k := by
  rw [GoMap.mem_keys_iff, GoMap.mem_keys_iff]
  simp only [GoMap.get_set]
  by_cases h : k = k'
  · simp [h]
  · have h' : ¬ k' = k := fun e => h e.symm
    simp [h, h']

theorem GoMap.WF_set (m : GoMap) (k : String) (v : Value) (h : m.WF) : (GoMap.set m k v).WF := by
  induction m with
  | nil => simp [GoMap.set, GoMap.WF, GoMap.keys]
  | cons e m ih =>
    obtain ⟨k0, v0⟩ := e
    have hm : GoMap.WF m := by
      simp only [GoMap.WF, GoMap.keys, List.map_cons, List.nodup_cons] at h ⊢
      exact h.2
    have hk0 : k0 ∉ GoMap.keys m := by
      simp only [GoMap.WF, GoMap.keys, List.map_cons, List.nodup_cons] at h ⊢
      exact h.1
    by_cases h0 : k0 = k
    · subst h0
      simpa [GoMap.set, GoMap.WF, GoMap.keys] using h
    · have hk : k0 ∉ (GoMap.set m k v).keys := by
        rw [GoMap.keys_set]
        rintro (h1 | h1)
        · exact hk0 h1
        · exact h0 h1
      have := ih hm
      simp only [GoMap.set, h0, if_false]
      simp only [GoMap.WF, GoMap.keys, List.map_cons, List.nodup_cons] at this hk ⊢
      exact ⟨hk, this⟩

/-! ## The body built by `stamgr` -/

theorem rangeCopy_cons (e : String × Value) (es : List (String × Value)) (m : Maps) :
    rangeCopy (e :: es) m = rangeCopy es { m with reqBody := m.reqBody.set e.1 e.2 } := rfl

theorem rangeCopy_data (es : List (String × Value)) (m : Maps) :
    (rangeCopy es m).data = m.data := by
  induction es generalizing m with
  | nil => rfl
  | cons e es ih => rw [rangeCopy_cons, ih]

theorem rangeCopy_WF (es : List (String × Value)) (m : Maps) (h : m.reqBody.WF) :
    (rangeCopy es m).reqBody.WF := by
  induction es generalizing m with
  | nil => exact h
  | cons e es ih =>
    rw [rangeCopy_cons]
    exact ih _ (GoMap.WF_set _ _ _ h)

theorem rangeCopy_get (es : GoMap) (m : Maps) (k : String) (h : es.WF) :
    (rangeCopy es m).reqBody.get k =
      match es.get k with
      | some v => some v
      | none => m.reqBody.get k := by
  induction es generalizing m with
  | nil => simp [rangeCopy, GoMap.get]
  | cons e es ih =>
    obtain ⟨k0, v0⟩ := e
    have hes : GoMap.WF es := by
      simp only [GoMap.WF, GoMap.keys, List.map_cons, List.nodup_cons] at h ⊢
      exact h.2
    have hk0 : k0 ∉ GoMap.keys es := by
      simp only [GoMap.WF, GoMap.keys, List.map_cons, List.nodup_cons] at h ⊢
      exact h.1
    rw [rangeCopy_cons, ih _ hes]
    by_cases hk : k0 = k
    · subst hk
      have : GoMap.get es k0 = none := (GoMap.get_eq_none_iff es k0).2 hk0
      simp [this, GoMap.get_set, GoMap.get]
    · simp [GoMap.get_set, GoMap.get, hk]

theorem stamgrMaps_get (cmd : String) (data : GoMap) (k : String) (h : data.WF) :
    (stamgrMaps cmd data).reqBody.get k =
      if k = "cmd" then some (Value.str cmd) else data.get k := by
  simp only [stamgrMaps, GoMap.get_set, rangeCopy_get data _ k h]
  by_cases hk : k = "cmd"
  · simp [hk]
  · have hk' : ¬ "cmd" = k := fun e => hk e.symm
    simp only [hk, hk', if_false]
    cases hd : GoMap.get data k <;> simp [GoMap.get]

theorem stamgrMaps_keys (cmd : String) (data : GoMap) (k : String) (h : data.WF) :
    k ∈ (stamgrMaps cmd data).reqBody.keys ↔ k ∈ data.keys ∨ k = "cmd" := by
  rw [GoMap.mem_keys_iff, GoMap.mem_keys_iff, stamgrMaps_get cmd data k h]
  by_cases hk : k = "cmd" <;> simp [hk]

theorem stamgrMaps_WF (cmd : String) (data : GoMap) : (stamgrMaps cmd data).reqBody.WF := by
  simp only [stamgrMaps]
  apply GoMap.WF_set
  apply rangeCopy_WF
  simp [GoMap.WF, GoMap.keys]

theorem stamgrMaps_data (cmd : String) (data : GoMap) : (stamgrMaps cmd data).data = data := by
  simp [stamgrMaps, rangeCopy_data]

theorem GoMap.get_eq_some_iff (m : GoMap) (k : String) (v : Value) (h : m.WF) :
    m.get k = some v ↔ (k, v) ∈ m := by
  induction m with
  | nil => simp [GoMap.get]
  | cons e m ih =>
    obtain ⟨k0, v0⟩ := e
    have hm : GoMap.WF m := by
      simp only [GoMap.WF, GoMap.keys, List.map_cons, List.nodup_cons] at h ⊢
      exact h.2
    have hk0 : k0 ∉ GoMap.keys m := by
      simp only [GoMap.WF, GoMap.keys, List.map_cons, List.nodup_cons] at h ⊢
      exact h.1
    by_cases hk : k0 = k
    · subst hk
      have hnot : ∀ w, (k0, w) ∉ m := by
        intro w hw
        exact hk0 (List.mem_map.2 ⟨(k0, w), hw, rfl⟩)
      simp [GoMap.get, hnot, eq_comm]
    · have hk' : ¬ k = k0 := fun e => hk e.symm
      simp [GoMap.get, hk, hk', ih hm]

/-- The order in which the entries of `data` are visited does not change the
bindings of the body that is built. -/
theorem rangeCopy_get_perm (es es' : GoMap) (m : Maps) (k : String) (h : es.WF)
    (hp : List.Perm es' es) :
    (rangeCopy es' m).reqBody.get k = (rangeCopy es m).reqBody.get k := by
  have h' : GoMap.WF es' := by
    simp only [GoMap.WF, GoMap.keys] at h ⊢
    exact (List.Perm.nodup_iff (List.Perm.map Prod.fst hp)).2 h
  have hget : GoMap.get es' k = GoMap.get es k := by
    cases hv : GoMap.get es k with
    | none =>
      rw [GoMap.get_eq_none_iff] at hv ⊢
      simp only [GoMap.keys] at hv ⊢
      exact fun hmem => hv ((List.Perm.mem_iff (List.Perm.map Prod.fst hp)).1 hmem)
    | some v =>
      rw [GoMap.get_eq_some_iff es k v h] at hv
      rw [GoMap.get_eq_some_iff es' k v h']
      exact (List.Perm.mem_iff hp).2 hv
  rw [rangeCopy_get es' m k h', rangeCopy_get es m k h, hget]

/-! ## What each operation does with the answer of the controller -/

theorem GetUserByMAC_state (c : Client σ) (site mac : String) (s : St σ) :
    (GetUserByMAC c site mac s).2 =
      s.record (Call.transport (getUserByMACRequest site mac))
        (c.doUsers (getUserByMACRequest site mac) s.world).2 := by
  unfold GetUserByMAC Client.send getUserByMACRequest
  split
  · next h => simp only [Prod.mk.injEq] at h; rw [← h.2]
  · next h =>
    simp only [Prod.mk.injEq] at h
    split <;> rw [← h.2]

theorem GetUserByMAC_error (c : Client σ) (site mac : String) (s : St σ) (e : Err)
    (h : (c.doUsers (getUserByMACRequest site mac) s.world).1 = Except.error e) :
    (GetUserByMAC c site mac s).1 = Except.error e := by
  simp only [getUserByMACRequest] at h
  simp [GetUserByMAC, Client.send, h]

theorem GetUserByMAC_ok (c : Client σ) (site mac : String) (s : St σ) (env : Envelope)
    (h : (c.doUsers (getUserByMACRequest site mac) s.world).1 = Except.ok env) :
    (GetUserByMAC c site mac s).1 =
      match env.Data with
      | [u] => Except.ok u
      | _ => Except.error Err.NotFoundError := by
  simp only [getUserByMACRequest] at h
  rcases hd : env.Data with _ | ⟨u, _ | ⟨u2, rest⟩⟩ <;>
    simp [GetUserByMAC, Client.send, h, hd]

theorem CreateUser_state (c : Client σ) (site : String) (d : User) (s : St σ) :
    (CreateUser c site d s).2 =
      s.record (Call.transport (createUserRequest site d))
        (c.doGroup (createUserRequest site d) s.world).2 := by
  unfold CreateUser Client.sendGroup createUserRequest
  split
  · next h => simp only [Prod.mk.injEq] at h; rw [← h.2]
  · next h =>
    simp only [Prod.mk.injEq] at h
    split
    · rw [← h.2]
    · split
      · rw [← h.2]
      · split <;> rw [← h.2]

theorem CreateUser_error (c : Client σ) (site : String) (d : User) (s : St σ) (e : Err)
    (h : (c.doGroup (createUserRequest site d) s.world).1 = Except.error e) :
    (CreateUser c site d s).1 = Except.error e := by
  simp only [createUserRequest] at h
  simp [CreateUser, Client.sendGroup, h]

theorem CreateUser_malformed (c : Client σ) (site : String) (d : User) (s : St σ)
    (g : GroupEnvelope)
    (h : (c.doGroup (createUserRequest site d) s.world).1 = Except.ok g)
    (hd : g.Data.length ≠ 1) :
    (CreateUser c site d s).1 = Except.error (Err.errorf "malformed group response") := by
  simp only [createUserRequest] at h
  simp [CreateUser, Client.sendGroup, h, hd]

theorem CreateUser_inner_error (c : Client σ) (site : String) (d : User) (s : St σ)
    (g : GroupEnvelope) (o : Envelope) (e : Err)
    (h : (c.doGroup (createUserRequest site d) s.world).1 = Except.ok g)
    (hd : g.Data = [o]) (he : o.Meta.error? = some e) :
    (CreateUser c site d s).1 = Except.error e := by
  simp only [createUserRequest] at h
  simp [CreateUser, Client.sendGroup, h, hd, he]

theorem CreateUser_inner_ok (c : Client σ) (site : String) (d : User) (s : St σ)
    (g : GroupEnvelope) (o : Envelope)
    (h : (c.doGroup (createUserRequest site d) s.world).1 = Except.ok g)
    (hd : g.Data = [o]) (he : o.Meta.error? = none) :
    (CreateUser c site d s).1 =
      match o.Data with
      | [u] => Except.ok u
      | _ => Except.error Err.NotFoundError := by
  simp only [createUserRequest] at h
  rcases ho : o.Data with _ | ⟨u, _ | ⟨u2, rest⟩⟩ <;>
    simp [CreateUser, Client.sendGroup, h, hd, he, ho]

theorem stamgr_state (c : Client σ) (site cmd : String) (data : GoMap) (s : St σ) :
    (stamgr c site cmd data s).2 =
      s.record (Call.transport (stamgrRequest site cmd data))
        (c.doUsers (stamgrRequest site cmd data) s.world).2 := by
  unfold stamgr Client.send stamgrRequest
  split
  · next h => simp only [Prod.mk.injEq] at h; rw [← h.2]
  · next h => simp only [Prod.mk.injEq] at h; rw [← h.2]

theorem stamgr_error (c : Client σ) (site cmd : String) (data : GoMap) (s : St σ) (e : Err)
    (h : (c.doUsers (stamgrRequest site cmd data) s.world).1 = Except.error e) :
    (stamgr c site cmd data s).1 = Except.error e := by
  simp only [stamgrRequest] at h
  simp [stamgr, Client.send, h]

theorem stamgr_ok (c : Client σ) (site cmd : String) (data : GoMap) (s : St σ) (env : Envelope)
    (h : (c.doUsers (stamgrRequest site cmd data) s.world).1 = Except.ok env) :
    (stamgr c site cmd data s).1 = Except.ok env.Data := by
  simp only [stamgrRequest] at h
  simp [stamgr, Client.send, h]

theorem BlockUserByMAC_eq (c : Client σ) (site mac : String) (s : St σ) :
    BlockUserByMAC c site mac s =
      (classifyCommand (stamgr c site "block-sta" [("mac", Value.str mac)] s).1,
        (stamgr c site "block-sta" [("mac", Value.str mac)] s).2) := by
  unfold BlockUserByMAC classifyCommand
  split
  · next h => simp [h]
  · next h => split <;> simp_all

theorem UnblockUserByMAC_eq (c : Client σ) (site mac : String) (s : St σ) :
    UnblockUserByMAC c site mac s =
      (classifyCommand (stamgr c site "unblock-sta" [("mac", Value.str mac)] s).1,
        (stamgr c site "unblock-sta" [("mac", Value.str mac)] s).2) := by
  unfold UnblockUserByMAC classifyCommand
  split
  · next h => simp [h]
  · next h => split <;> simp_all

theorem DeleteUserByMAC_eq (c : Client σ) (site mac : String) (s : St σ) :
    DeleteUserByMAC c site mac s =
      (classifyCommand (stamgr c site "forget-sta" [("macs", Value.strs [mac])] s).1,
        (stamgr c site "forget-sta" [("macs", Value.strs [mac])] s).2) := by
  unfold DeleteUserByMAC classifyCommand
  split
  · next h => simp [h]
  · next h => split <;> simp_all

theorem updateUser6_0_43_put_error (c : Client σ) (site : String) (d : User) (s : St σ)
    (e : Err) (h : (c.doUsers (putUserRequest site d) s.world).1 = Except.error e) :
    updateUser6_0_43 c site d s =
      (Except.error e,
        s.record (Call.transport (putUserRequest site d))
          (c.doUsers (putUserRequest site d) s.world).2) := by
  simp only [putUserRequest] at h
  simp [updateUser6_0_43, Client.send, putUserRequest, h]

theorem updateUser6_0_43_put_ok (c : Client σ) (site : String) (d : User) (s : St σ)
    (env : Envelope) (h : (c.doUsers (putUserRequest site d) s.world).1 = Except.ok env) :
    updateUser6_0_43 c site d s =
      GetUser c site d.ID
        (s.record (Call.transport (putUserRequest site d))
          (c.doUsers (putUserRequest site d) s.world).2) := by
  simp only [putUserRequest] at h
  simp only [updateUser6_0_43, Client.send, putUserRequest, h]
  generalize GetUser c site d.ID _ = r
  obtain ⟨r1, r2⟩ := r
  cases r1 <;> rfl

theorem UpdateUser_newer (c : Client σ) (site : String) (d : User) (s : St σ) (v : Version)
    (hv : NewVersion c.version = some v) (hge : 0 ≤ v.Compare controllerV6_0_43) :
    UpdateUser c site d s =
      (Outcome.returned (updateUser6_0_43 c site d s).1, (updateUser6_0_43 c site d s).2) := by
  simp [UpdateUser, GreaterThanOrEqual, hv, hge]

theorem UpdateUser_legacy (c : Client σ) (site : String) (d : User) (s : St σ) (v : Version)
    (hv : NewVersion c.version = some v) (hlt : v.Compare controllerV6_0_43 < 0) :
    UpdateUser c site d s =
      (Outcome.returned (updateUser c site d s).1, (updateUser c site d s).2) := by
  have hlt' : ¬ 0 ≤ v.Compare controllerV6_0_43 := not_le.2 hlt
  simp [UpdateUser, GreaterThanOrEqual, hv, hlt']

theorem updateUser_state (c : Client σ) (site : String) (d : User) (s : St σ) :
    (updateUser c site d s).2 =
      s.record (Call.transport (createUserRequest site d))
        (c.doGroup (createUserRequest site d) s.world).2 := by
  unfold updateUser Client.sendGroup createUserRequest
  split
  · next h => simp only [Prod.mk.injEq] at h; rw [← h.2]
  · next h =>
    simp only [Prod.mk.injEq] at h
    split
    · rw [← h.2]
    · split
      · rw [← h.2]
      · split <;> rw [← h.2]

theorem UpdateUser_nil_version (c : Client σ) (site : String) (d : User) (s : St σ)
    (hv : NewVersion c.version = none) :
    UpdateUser c site d s = (Outcome.panicked, s) := by
  simp [UpdateUser, GreaterThanOrEqual, hv]

/-! ## Metadata errors -/

/-- C1 (counterexample): the controller answers with envelopes whose metadata
carries a non-empty error message, and the transport call succeeds.
`GetUserByMAC` still returns the single record of the data sequence,
`CreateUser` reports a malformed group response when the outer data sequence
is empty, and `BlockUserByMAC` returns no error: none of them fails with the
protocol error of the envelope. -/
theorem outer_meta_error_not_surfaced :
    errMeta.error? = some (Err.protocol errMeta) ∧
    (GetUserByMAC
      (scripted "6.0.43" (Except.ok { Meta := errMeta, Data := [alice] })
        (Except.ok { Meta := errMeta, Data := [] }) (Except.ok alice))
      "default" alice.MAC start).1 = Except.ok alice ∧
    (CreateUser
      (scripted "6.0.43" (Except.ok { Meta := errMeta, Data := [alice] })
        (Except.ok { Meta := errMeta, Data := [] }) (Except.ok alice))
      "default" alice start).1 = Except.error (Err.errorf "malformed group response") ∧
    (BlockUserByMAC
      (scripted "6.0.43" (Except.ok { Meta := errMeta, Data := [alice] })
        (Except.ok { Meta := errMeta, Data := [] }) (Except.ok alice))
      "default" alice.MAC start).1 = none := by
  decide

/-- C1 (amended): when the transport call succeeds, the only metadata that is
consulted is that of the single object of the response of `CreateUser`: if the
outer data sequence has exactly one object and the metadata of that object
yields an error, `CreateUser` fails with that error whatever the length of the
data sequence of the object.  The metadata of the outer envelope is not
consulted: `GetUserByMAC` returns the single record of a data sequence of
length 1 and `NotFoundError` otherwise, `CreateUser` reports a malformed group
response when the outer data sequence has not exactly one object, and `stamgr`
returns the data sequence. -/
theorem meta_error_only_from_created_object (c : Client σ) (site mac cmd : String)
    (d : User) (data : GoMap) (s : St σ) :
    (∀ g o e, (c.doGroup (createUserRequest site d) s.world).1 = Except.ok g →
        g.Data = [o] → o.Meta.error? = some e →
        (CreateUser c site d s).1 = Except.error e) ∧
    (∀ env, (c.doUsers (getUserByMACRequest site mac) s.world).1 = Except.ok env →
        (GetUserByMAC c site mac s).1 =
          match env.Data with
          | [u] => Except.ok u
          | _ => Except.error Err.NotFoundError) ∧
    (∀ g, (c.doGroup (createUserRequest site d) s.world).1 = Except.ok g →
        g.Data.length ≠ 1 →
        (CreateUser c site d s).1 = Except.error (Err.errorf "malformed group response")) ∧
    (∀ env, (c.doUsers (stamgrRequest site cmd data) s.world).1 = Except.ok env →
        (stamgr c site cmd data s).1 = Except.ok env.Data) :=
  ⟨fun g o e h hd he => CreateUser_inner_error c site d s g o e h hd he,
   fun env h => GetUserByMAC_ok c site mac s env h,
   fun g h hd => CreateUser_malformed c site d s g h hd,
   fun env h => stamgr_ok c site cmd data s env h⟩

/-- C1 (witness): the created object carries an error message together with a
record; `CreateUser` fails with the protocol error of that object. -/
theorem meta_error_only_from_created_object_witness :
    errMeta.error? = some (Err.protocol errMeta) ∧
    (CreateUser
      (scripted "6.0.43" (Except.ok { Meta := okMeta, Data := [] })
        (Except.ok { Meta := okMeta, Data := [{ Meta := errMeta, Data := [alice] }] })
        (Except.ok alice))
      "default" bob start).1 = Except.error (Err.protocol errMeta) :=
  ⟨by decide,
   (meta_error_only_from_created_object
      (scripted "6.0.43" (Except.ok { Meta := okMeta, Data := [] })
        (Except.ok { Meta := okMeta, Data := [{ Meta := errMeta, Data := [alice] }] })
        (Except.ok alice))
      "default" "" "" bob [] start).1
      { Meta := okMeta, Data := [{ Meta := errMeta, Data := [alice] }] }
      { Meta := errMeta, Data := [alice] } (Err.protocol errMeta) rfl rfl (by decide)⟩

/-! ## CreateUser -/

/-- C2: when the transport call of `CreateUser` succeeds: if the outer data
sequence has exactly one object, without metadata error, whose data sequence
has exactly one record, `CreateUser` returns that record and no error; if the
outer data sequence is empty it fails with the malformed-response error, which
is not `NotFoundError`; if the outer data sequence has exactly one object,
without metadata error, whose data sequence is empty, it fails with
`NotFoundError`. -/
theorem CreateUser_two_level_envelope (c : Client σ) (site : String) (d : User) (s : St σ)
    (g : GroupEnvelope)
    (h : (c.doGroup (createUserRequest site d) s.world).1 = Except.ok g) :
    (∀ o u, g.Data = [o] → o.Meta.error? = none → o.Data = [u] →
        (CreateUser c site d s).1 = Except.ok u) ∧
    (g.Data = [] →
        (CreateUser c site d s).1 = Except.error (Err.errorf "malformed group response") ∧
        Err.errorf "malformed group response" ≠ Err.NotFoundError) ∧
    (∀ o, g.Data = [o] → o.Meta.error? = none → o.Data = [] →
        (CreateUser c site d s).1 = Except.error Err.NotFoundError) := by
  refine ⟨?_, ?_, ?_⟩
  · intro o u hd he hu
    rw [CreateUser_inner_ok c site d s g o h hd he, hu]
  · intro hd
    refine ⟨CreateUser_malformed c site d s g h ?_, by decide⟩
    simp [hd]
  · intro o hd he hu
    rw [CreateUser_inner_ok c site d s g o h hd he, hu]

/-- C2 (witness): one object holding one record gives back that record. -/
theorem CreateUser_two_level_envelope_witness :
    (CreateUser
      (scripted "6.0.43" (Except.ok { Meta := okMeta, Data := [] })
        (Except.ok { Meta := okMeta, Data := [{ Meta := okMeta, Data := [alice] }] })
        (Except.ok bob))
      "default" bob start).1 = Except.ok alice :=
  (CreateUser_two_level_envelope
      (scripted "6.0.43" (Except.ok { Meta := okMeta, Data := [] })
        (Except.ok { Meta := okMeta, Data := [{ Meta := okMeta, Data := [alice] }] })
        (Except.ok bob))
      "default" bob start
      { Meta := okMeta, Data := [{ Meta := okMeta, Data := [alice] }] } rfl).1
    { Meta := okMeta, Data := [alice] } alice rfl (by decide) rfl

/-! ## Commands by MAC -/

theorem classifyCommand_ok (users : List User) :
    (classifyCommand (Except.ok users) = none ↔ users.length = 1) ∧
    (users.length ≠ 1 → classifyCommand (Except.ok users) = some Err.NotFoundError) := by
  by_cases h : users.length = 1 <;> simp [classifyCommand, h]

/-- C3: for each of `BlockUserByMAC`, `UnblockUserByMAC` and `DeleteUserByMAC`,
whenever the dispatcher `stamgr` succeeds with a sequence of users, the
operation returns no error if and only if that sequence has length exactly 1,
and for every other length it returns `NotFoundError`. -/
theorem byMAC_commands_exactly_one (c : Client σ) (site mac : String) (s : St σ) :
    (∀ users s1,
        stamgr c site "block-sta" [("mac", Value.str mac)] s = (Except.ok users, s1) →
        ((BlockUserByMAC c site mac s).1 = none ↔ users.length = 1) ∧
        (users.length ≠ 1 → (BlockUserByMAC c site mac s).1 = some Err.NotFoundError)) ∧
    (∀ users s1,
        stamgr c site "unblock-sta" [("mac", Value.str mac)] s = (Except.ok users, s1) →
        ((UnblockUserByMAC c site mac s).1 = none ↔ users.length = 1) ∧
        (users.length ≠ 1 → (UnblockUserByMAC c site mac s).1 = some Err.NotFoundError)) ∧
    (∀ users s1,
        stamgr c site "forget-sta" [("macs", Value.strs [mac])] s = (Except.ok users, s1) →
        ((DeleteUserByMAC c site mac s).1 = none ↔ users.length = 1) ∧
        (users.length ≠ 1 → (DeleteUserByMAC c site mac s).1 = some Err.NotFoundError)) := by
  refine ⟨?_, ?_, ?_⟩
  · intro users s1 h
    rw [BlockUserByMAC_eq, h]
    exact classifyCommand_ok users
  · intro users s1 h
    rw [UnblockUserByMAC_eq, h]
    exact classifyCommand_ok users
  · intro users s1 h
    rw [DeleteUserByMAC_eq, h]
    exact classifyCommand_ok users

/-- C3 (witness): the dispatcher reports two users for one MAC and
`DeleteUserByMAC` answers `NotFoundError`. -/
theorem byMAC_commands_exactly_one_witness :
    (DeleteUserByMAC
      (scripted "6.0.43" (Except.ok { Meta := okMeta, Data := [alice, bob] })
        (Except.ok { Meta := okMeta, Data := [] }) (Except.ok alice))
      "default" alice.MAC start).1 = some Err.NotFoundError :=
  ((byMAC_commands_exactly_one
      (scripted "6.0.43" (Except.ok { Meta := okMeta, Data := [alice, bob] })
        (Except.ok { Meta := okMeta, Data := [] }) (Except.ok alice))
      "default" alice.MAC start).2.2 [alice, bob] _ rfl).2 (by decide)

/-! ## GetUserByMAC -/

/-- C4: when the transport call of `GetUserByMAC` succeeds with an envelope
(whatever its metadata) whose data sequence has length n: if n = 1 the single
element is returned without error; if n = 0 the result is `NotFoundError`; if
n is 2 or more the result is `NotFoundError` too, not the first element. -/
theorem GetUserByMAC_exactly_one (c : Client σ) (site mac : String) (s : St σ)
    (env : Envelope)
    (h : (c.doUsers (getUserByMACRequest site mac) s.world).1 = Except.ok env) :
    (∀ u, env.Data = [u] → (GetUserByMAC c site mac s).1 = Except.ok u) ∧
    (env.Data = [] → (GetUserByMAC c site mac s).1 = Except.error Err.NotFoundError) ∧
    (2 ≤ env.Data.length →
        (GetUserByMAC c site mac s).1 = Except.error Err.NotFoundError ∧
        ∀ u, env.Data.head? = some u → (GetUserByMAC c site mac s).1 ≠ Except.ok u) := by
  have key := GetUserByMAC_ok c site mac s env h
  refine ⟨?_, ?_, ?_⟩
  · intro u hd
    rw [key, hd]
  · intro hd
    rw [key, hd]
  · intro hlen
    have hnf : (GetUserByMAC c site mac s).1 = Except.error Err.NotFoundError := by
      rw [key]
      rcases hd : env.Data with _ | ⟨u, _ | ⟨u2, rest⟩⟩
      · rfl
      · rw [hd] at hlen; simp at hlen
      · rfl
    refine ⟨hnf, ?_⟩
    intro u _
    rw [hnf]
    exact fun hcontra => by cases hcontra

/-- C4 (witness): two records match one MAC; the lookup fails with
`NotFoundError`. -/
theorem GetUserByMAC_exactly_one_witness :
    (GetUserByMAC
      (scripted "6.0.43" (Except.ok { Meta := okMeta, Data := [alice, bob] })
        (Except.ok { Meta := okMeta, Data := [] }) (Except.ok alice))
      "default" alice.MAC start).1 = Except.error Err.NotFoundError :=
  ((GetUserByMAC_exactly_one
      (scripted "6.0.43" (Except.ok { Meta := okMeta, Data := [alice, bob] })
        (Except.ok { Meta := okMeta, Data := [] }) (Except.ok alice))
      "default" alice.MAC start { Meta := okMeta, Data := [alice, bob] } rfl).2.2
    (by decide)).1

/-! ## The version gate -/

theorem controllerV6_0_43_segments : controllerV6_0_43 = { segments := [6, 0, 43] } := by
  decide

/-- Against the threshold, a three-segment version is compared number by
number: 6.0.5 is below 6.0.43 and 6.0.100 is above it. -/
theorem Compare_three_segments (a b k : Nat) :
    0 ≤ Version.Compare { segments := [a, b, k] } controllerV6_0_43 ↔
      6 < a ∨ (a = 6 ∧ (0 < b ∨ 43 ≤ k)) := by
  rw [controllerV6_0_43_segments]
  simp only [Version.Compare, compareSegments, allZero]
  split_ifs <;> simp_all <;> omega

theorem updateUser6_0_43_trace (c : Client σ) (site : String) (d : User) (s : St σ) :
    ∃ rest, (updateUser6_0_43 c site d s).2.trace =
      s.trace ++ Call.transport (putUserRequest site d) :: rest := by
  cases h : (c.doUsers (putUserRequest site d) s.world).1 with
  | error e =>
    exact ⟨[], by rw [updateUser6_0_43_put_error c site d s e h]; rfl⟩
  | ok env =>
    refine ⟨[Call.getUser site d.ID], ?_⟩
    rw [updateUser6_0_43_put_ok c site d s env h]
    simp [GetUser, St.record]

/-- C5: on a client whose version string parses to a version greater than or
equal to 6.0.43, `UpdateUser` first issues a PUT to `s/{site}/rest/user/{d.ID}`
with `d` as body; once the PUT has succeeded the calls issued are exactly that
PUT followed by `GetUser(site, d.ID)`, and the result is the result of that
read; so two runs whose PUT responses differ but whose reads return the same
record return that same record. -/
theorem UpdateUser_newer_write_then_read (c : Client σ) (site : String) (d : User)
    (s : St σ) (v : Version)
    (hv : NewVersion c.version = some v) (hge : 0 ≤ v.Compare controllerV6_0_43) :
    (∃ rest, (UpdateUser c site d s).2.trace =
        s.trace ++ Call.transport
          (Request.mk Method.PUT ("s/" ++ site ++ "/rest/user/" ++ d.ID) (Body.user d)) :: rest) ∧
    (∀ env, (c.doUsers (putUserRequest site d) s.world).1 = Except.ok env →
        (UpdateUser c site d s).2.trace =
          s.trace ++ [Call.transport
            (Request.mk Method.PUT ("s/" ++ site ++ "/rest/user/" ++ d.ID) (Body.user d)),
            Call.getUser site d.ID] ∧
        (UpdateUser c site d s).1 = Outcome.returned
          (c.getUser site d.ID (c.doUsers (putUserRequest site d) s.world).2).1) ∧
    (∀ (c2 : Client σ) (s2 : St σ) (v2 : Version) (env env2 : Envelope) (r : User),
        NewVersion c2.version = some v2 → 0 ≤ v2.Compare controllerV6_0_43 →
        (c.doUsers (putUserRequest site d) s.world).1 = Except.ok env →
        (c2.doUsers (putUserRequest site d) s2.world).1 = Except.ok env2 →
        (c.getUser site d.ID (c.doUsers (putUserRequest site d) s.world).2).1 = Except.ok r →
        (c2.getUser site d.ID (c2.doUsers (putUserRequest site d) s2.world).2).1 = Except.ok r →
        (UpdateUser c site d s).1 = Outcome.returned (Except.ok r) ∧
        (UpdateUser c2 site d s2).1 = Outcome.returned (Except.ok r)) := by
  refine ⟨?_, ?_, ?_⟩
  · rw [UpdateUser_newer c site d s v hv hge]
    exact updateUser6_0_43_trace c site d s
  · intro env h
    rw [UpdateUser_newer c site d s v hv hge, updateUser6_0_43_put_ok c site d s env h]
    simp [GetUser, St.record, putUserRequest]
  · intro c2 s2 v2 env env2 r hv2 hge2 h1 h2 hr1 hr2
    rw [UpdateUser_newer c site d s v hv hge, updateUser6_0_43_put_ok c site d s env h1,
      UpdateUser_newer c2 site d s2 v2 hv2 hge2, updateUser6_0_43_put_ok c2 site d s2 env2 h2]
    exact ⟨congrArg Outcome.returned hr1, congrArg Outcome.returned hr2⟩

/-- C5 (witness): version 6.0.100; the PUT response echoes a stale record, the
read returns the fresh one, and the fresh one is the result. -/
theorem UpdateUser_newer_write_then_read_witness :
    (UpdateUser
      (scripted "6.0.100" (Except.ok { Meta := okMeta, Data := [bob] })
        (Except.ok { Meta := okMeta, Data := [] }) (Except.ok alice))
      "default" alice start).1 = Outcome.returned (Except.ok alice) :=
  ((UpdateUser_newer_write_then_read
      (scripted "6.0.100" (Except.ok { Meta := okMeta, Data := [bob] })
        (Except.ok { Meta := okMeta, Data := [] }) (Except.ok alice))
      "default" alice start { segments := [6, 0, 100] } (by decide) (by decide)).2.1
    { Meta := okMeta, Data := [bob] } rfl).2

/-- C6: on a client whose version string parses to a version strictly below
6.0.43, `UpdateUser` delegates to the legacy `updateUser` and returns its
result unchanged.  The only request that goes to the controller is the POST of
the legacy write to `s/{site}/group/user`: no PUT is issued, in particular
none to the record endpoint `s/{site}/rest/user/{id}`, and no `GetUser` read
follows. -/
theorem UpdateUser_legacy_below_threshold (c : Client σ) (site : String) (d : User)
    (s : St σ) (v : Version)
    (hv : NewVersion c.version = some v) (hlt : v.Compare controllerV6_0_43 < 0) :
    (UpdateUser c site d s).1 = Outcome.returned (updateUser c site d s).1 ∧
    (UpdateUser c site d s).2 = (updateUser c site d s).2 ∧
    (∃ issued, (UpdateUser c site d s).2.trace = s.trace ++ issued ∧
        issued = [Call.transport
          (Request.mk Method.POST ("s/" ++ site ++ "/group/user") (Body.objects [d]))] ∧
        (∀ path body, Call.transport (Request.mk Method.PUT path body) ∉ issued) ∧
        (∀ site2 id, Call.getUser site2 id ∉ issued)) := by
  rw [UpdateUser_legacy c site d s v hv hlt]
  refine ⟨rfl, rfl, [Call.transport (createUserRequest site d)], ?_, rfl, ?_, ?_⟩
  · rw [updateUser_state]
    rfl
  · intro path body hmem
    simp [createUserRequest] at hmem
  · intro site2 id hmem
    simp at hmem

/-- C6 (witness): version 6.0.5 is below 6.0.43; the result is the record
echoed by the legacy write, not the one a read would return. -/
theorem UpdateUser_legacy_below_threshold_witness :
    (UpdateUser
      (scripted "6.0.5" (Except.ok { Meta := okMeta, Data := [alice] })
        (Except.ok { Meta := okMeta, Data := [{ Meta := okMeta, Data := [bob] }] })
        (Except.ok alice))
      "default" alice start).1 = Outcome.returned (Except.ok bob) :=
  (UpdateUser_legacy_below_threshold
      (scripted "6.0.5" (Except.ok { Meta := okMeta, Data := [alice] })
        (Except.ok { Meta := okMeta, Data := [{ Meta := okMeta, Data := [bob] }] })
        (Except.ok alice))
      "default" alice start { segments := [6, 0, 5] } (by decide) (by decide)).1

/-- C7 (failing input): with the version strings `""` and `"not-a-version"`
the parse fails, the comparison is called on the nil version, and `UpdateUser`
panics before any call is issued: it takes neither the legacy path nor the
newer one. -/
theorem UpdateUser_unparsable_version_panics :
    NewVersion "" = none ∧ NewVersion "not-a-version" = none ∧
    (UpdateUser
      (scripted "" (Except.ok { Meta := okMeta, Data := [alice] })
        (Except.ok { Meta := okMeta, Data := [] }) (Except.ok alice))
      "default" alice start).1 = Outcome.panicked ∧
    (UpdateUser
      (scripted "" (Except.ok { Meta := okMeta, Data := [alice] })
        (Except.ok { Meta := okMeta, Data := [] }) (Except.ok alice))
      "default" alice start).2.trace = [] ∧
    (UpdateUser
      (scripted "not-a-version" (Except.ok { Meta := okMeta, Data := [alice] })
        (Except.ok { Meta := okMeta, Data := [] }) (Except.ok alice))
      "default" alice start).1 = Outcome.panicked := by
  decide

/-! ## Transport failures -/

/-- C8: when a transport call fails with error `e`, the operation returns
exactly `e` and the failed call is the last call it issues.  This holds for
`GetUserByMAC`, `CreateUser`, `BlockUserByMAC`, `UnblockUserByMAC`,
`DeleteUserByMAC` and, on a client of version 6.0.43 or more, for `UpdateUser`:
a failed PUT is not followed by the `GetUser` read, and a read that fails after
a successful PUT is returned unchanged. -/
theorem transport_failure_propagates (c : Client σ) (site mac : String) (d : User)
    (s : St σ) (e : Err) :
    ((c.doUsers (getUserByMACRequest site mac) s.world).1 = Except.error e →
        (GetUserByMAC c site mac s).1 = Except.error e ∧
        (GetUserByMAC c site mac s).2.trace =
          s.trace ++ [Call.transport (getUserByMACRequest site mac)]) ∧
    ((c.doGroup (createUserRequest site d) s.world).1 = Except.error e →
        (CreateUser c site d s).1 = Except.error e ∧
        (CreateUser c site d s).2.trace =
          s.trace ++ [Call.transport (createUserRequest site d)]) ∧
    ((c.doUsers (stamgrRequest site "block-sta" [("mac", Value.str mac)]) s.world).1
          = Except.error e →
        (BlockUserByMAC c site mac s).1 = some e ∧
        (BlockUserByMAC c site mac s).2.trace =
          s.trace ++ [Call.transport (stamgrRequest site "block-sta" [("mac", Value.str mac)])]) ∧
    ((c.doUsers (stamgrRequest site "unblock-sta" [("mac", Value.str mac)]) s.world).1
          = Except.error e →
        (UnblockUserByMAC c site mac s).1 = some e ∧
        (UnblockUserByMAC c site mac s).2.trace =
          s.trace ++
            [Call.transport (stamgrRequest site "unblock-sta" [("mac", Value.str mac)])]) ∧
    ((c.doUsers (stamgrRequest site "forget-sta" [("macs", Value.strs [mac])]) s.world).1
          = Except.error e →
        (DeleteUserByMAC c site mac s).1 = some e ∧
        (DeleteUserByMAC c site mac s).2.trace =
          s.trace ++
            [Call.transport (stamgrRequest site "forget-sta" [("macs", Value.strs [mac])])]) ∧
    (∀ v, NewVersion c.version = some v → 0 ≤ v.Compare controllerV6_0_43 →
        ((c.doUsers (putUserRequest site d) s.world).1 = Except.error e →
          (UpdateUser c site d s).1 = Outcome.returned (Except.error e) ∧
          (UpdateUser c site d s).2.trace =
            s.trace ++ [Call.transport (putUserRequest site d)]) ∧
        (∀ env, (c.doUsers (putUserRequest site d) s.world).1 = Except.ok env →
          (c.getUser site d.ID (c.doUsers (putUserRequest site d) s.world).2).1
            = Except.error e →
          (UpdateUser c site d s).1 = Outcome.returned (Except.error e) ∧
          (UpdateUser c site d s).2.trace =
            s.trace ++ [Call.transport (putUserRequest site d), Call.getUser site d.ID])) := by
  refine ⟨?_, ?_, ?_, ?_, ?_, ?_⟩
  · intro h
    exact ⟨GetUserByMAC_error c site mac s e h, by rw [GetUserByMAC_state]; rfl⟩
  · intro h
    exact ⟨CreateUser_error c site d s e h, by rw [CreateUser_state]; rfl⟩
  · intro h
    rw [BlockUserByMAC_eq, stamgr_state, stamgr_error c site _ _ s e h]
    exact ⟨rfl, rfl⟩
  · intro h
    rw [UnblockUserByMAC_eq, stamgr_state, stamgr_error c site _ _ s e h]
    exact ⟨rfl, rfl⟩
  · intro h
    rw [DeleteUserByMAC_eq, stamgr_state, stamgr_error c site _ _ s e h]
    exact ⟨rfl, rfl⟩
  · intro v hv hge
    refine ⟨?_, ?_⟩
    · intro h
      rw [UpdateUser_newer c site d s v hv hge, updateUser6_0_43_put_error c site d s e h]
      exact ⟨rfl, rfl⟩
    · intro env h hr
      rw [UpdateUser_newer c site d s v hv hge, updateUser6_0_43_put_ok c site d s env h]
      refine ⟨congrArg Outcome.returned hr, ?_⟩
      simp [GetUser, St.record]

/-- C8 (witness): the PUT of the newer update protocol fails; the failure is
the result and the PUT is the only call issued. -/
theorem transport_failure_propagates_witness :
    (UpdateUser
      (scripted "7.1.0" (Except.error (Err.other "connection refused"))
        (Except.ok { Meta := okMeta, Data := [] }) (Except.ok alice))
      "default" alice start).1
        = Outcome.returned (Except.error (Err.other "connection refused")) ∧
    (UpdateUser
      (scripted "7.1.0" (Except.error (Err.other "connection refused"))
        (Except.ok { Meta := okMeta, Data := [] }) (Except.ok alice))
      "default" alice start).2.trace
        = [] ++ [Call.transport (putUserRequest "default" alice)] :=
  ((transport_failure_propagates
      (scripted "7.1.0" (Except.error (Err.other "connection refused"))
        (Except.ok { Meta := okMeta, Data := [] }) (Except.ok alice))
      "default" alice.MAC alice start (Err.other "connection refused")).2.2.2.2.2
    { segments := [7, 1, 0] } (by decide) (by decide)).1 rfl

/-! ## The command dispatcher -/

/-- C9: `BlockUserByMAC`, `UnblockUserByMAC` and `DeleteUserByMAC` each issue
exactly one call, a POST to `s/{site}/cmd/stamgr`, whose body is the two-key
mapping of `mac` to the MAC and `cmd` to `block-sta`, of `mac` to the MAC and
`cmd` to `unblock-sta`, and of `macs` to the one-element list of the MAC and
`cmd` to `forget-sta`, respectively. -/
theorem byMAC_commands_request (c : Client σ) (site mac : String) (s : St σ) :
    (BlockUserByMAC c site mac s).2.trace =
      s.trace ++ [Call.transport (Request.mk Method.POST ("s/" ++ site ++ "/cmd/stamgr")
        (Body.params [("mac", Value.str mac), ("cmd", Value.str "block-sta")]))] ∧
    (UnblockUserByMAC c site mac s).2.trace =
      s.trace ++ [Call.transport (Request.mk Method.POST ("s/" ++ site ++ "/cmd/stamgr")
        (Body.params [("mac", Value.str mac), ("cmd", Value.str "unblock-sta")]))] ∧
    (DeleteUserByMAC c site mac s).2.trace =
      s.trace ++ [Call.transport (Request.mk Method.POST ("s/" ++ site ++ "/cmd/stamgr")
        (Body.params [("macs", Value.strs [mac]), ("cmd", Value.str "forget-sta")]))] := by
  refine ⟨?_, ?_, ?_⟩
  · rw [BlockUserByMAC_eq, stamgr_state]
    rfl
  · rw [UnblockUserByMAC_eq, stamgr_state]
    rfl
  · rw [DeleteUserByMAC_eq, stamgr_state]
    rfl

/-- C10: for every site, command name and parameter mapping `data`, `stamgr`
sends a body whose keys are the keys of `data` together with `cmd`, which binds
`cmd` to the command name (also when `data` binds `cmd`) and every other key to
its value in `data`; `data` itself is left as it was; the body is sent in one
POST to `s/{site}/cmd/stamgr`; and when the transport call succeeds the result
is the data sequence of the envelope as it is, without any check of its
length. -/
theorem stamgr_body_and_result (c : Client σ) (site cmd : String) (data : GoMap)
    (s : St σ) (hwf : data.WF) :
    (∀ k, (stamgrMaps cmd data).reqBody.get k =
        if k = "cmd" then some (Value.str cmd) else data.get k) ∧
    (∀ k, k ∈ (stamgrMaps cmd data).reqBody.keys ↔ k ∈ data.keys ∨ k = "cmd") ∧
    (stamgrMaps cmd data).reqBody.WF ∧
    (stamgrMaps cmd data).data = data ∧
    (stamgr c site cmd data s).2.trace =
      s.trace ++ [Call.transport (Request.mk Method.POST ("s/" ++ site ++ "/cmd/stamgr")
        (Body.params (stamgrMaps cmd data).reqBody))] ∧
    (∀ env, (c.doUsers (stamgrRequest site cmd data) s.world).1 = Except.ok env →
        (stamgr c site cmd data s).1 = Except.ok env.Data) := by
  refine ⟨fun k => stamgrMaps_get cmd data k hwf, fun k => stamgrMaps_keys cmd data k hwf,
    stamgrMaps_WF cmd data, stamgrMaps_data cmd data, ?_,
    fun env h => stamgr_ok c site cmd data s env h⟩
  rw [stamgr_state]
  rfl

/-- C10 (witness): the parameters already bind `cmd`; the body binds `cmd` to
the command name, and an empty data sequence is returned without error. -/
theorem stamgr_body_and_result_witness :
    GoMap.WF [("cmd", Value.str "reboot"), ("mac", Value.str alice.MAC)] ∧
    (stamgr
      (scripted "6.0.43" (Except.ok { Meta := okMeta, Data := [] })
        (Except.ok { Meta := okMeta, Data := [] }) (Except.ok alice))
      "default" "block-sta" [("cmd", Value.str "reboot"), ("mac", Value.str alice.MAC)]
      start).1 = Except.ok [] :=
  ⟨by decide,
   (stamgr_body_and_result
      (scripted "6.0.43" (Except.ok { Meta := okMeta, Data := [] })
        (Except.ok { Meta := okMeta, Data := [] }) (Except.ok alice))
      "default" "block-sta" [("cmd", Value.str "reboot"), ("mac", Value.str alice.MAC)]
      start (by decide)).2.2.2.2.2 { Meta := okMeta, Data := [] } rfl⟩

end Unifi
